import Mathlib

/-!
Verification of the BanyanHub SDK guard core: the authorization state
machine, heartbeat loop, license cache/verify logic, and the OTA update
engine. Each definition is a shallow embedding of the corresponding Go
function; theorems settle the behavioural claims about them.
-/

namespace BanyanHub

/-! ### Authorization state machine (state.go)

`State` mirrors the Go `State` enum; each `On...` function is the body of
the corresponding mutex-guarded method of `stateMachine`. The mutex only
serializes access; the transition logic is the pure function modelled here.
-/

inductive State
  | init
  | active
  | grace
  | locked
  | banned
deriving DecidableEq, Repr

def onVerifySuccess (s : State) : State :=
  if s = .init ∨ s = .grace then .active else s

def onHeartbeatOK (s : State) : State :=
  if s = .grace ∨ s = .active then .active else s

def onHeartbeatFail (s : State) : State :=
  if s = .active then .grace else s

def onKill (_ : State) : State := .banned

def onGracePeriodExpired (s : State) : State :=
  if s = .grace then .locked else s

/-- The five events a `stateMachine` can receive. -/
inductive SMEvent
  | verifySuccess
  | heartbeatOK
  | heartbeatFail
  | kill
  | graceExpired
deriving DecidableEq, Repr

def applyEvent (e : SMEvent) (s : State) : State :=
  match e with
  | .verifySuccess => onVerifySuccess s
  | .heartbeatOK => onHeartbeatOK s
  | .heartbeatFail => onHeartbeatFail s
  | .kill => onKill s
  | .graceExpired => onGracePeriodExpired s

def runEvents (s : State) (es : List SMEvent) : State :=
  es.foldl (fun t e => applyEvent e t) s

/-! ### Error taxonomy (errors.go)

Each constructor stands for one of the package-level sentinel error values;
`networkWrapped msg` stands for `fmt.Errorf("%w: %v", ErrNetworkError, err)`
which is a fresh value distinct (under Go `==`) from every sentinel.
-/

inductive GuardErr
  | licenseInvalid
  | licenseInvalidCode (code : String)
  | licenseExpired
  | licenseSuspended
  | machineBanned
  | maxMachinesExceeded
  | projectNotAuthorized
  | networkWrapped (msg : String)
  | invalidServerResponse
  | notActivated
  | locked
  | banned
deriving DecidableEq, Repr

/-- heartbeat.go `isFatalError`: pointer-equality against the three
sentinels ErrBanned, ErrLicenseSuspended, ErrMachineBanned. -/
def isFatalError : GuardErr → Bool
  | .banned => true
  | .licenseSuspended => true
  | .machineBanned => true
  | _ => false

/-! ### Configuration (config.go) -/

/-- `ManagedComponent`. `strategy` is the Go int-typed `UpdateStrategy`
(`UpdateBackend = 0`, `UpdateFrontend = 1`; any other value falls into the
`default` arm of the dispatch switch). The `PostUpdate` hook is modelled by
whether it is configured and whether it fails, which is all the engine
observes. -/
structure ManagedComponentM where
  slug : String
  dir : String
  strategy : Int
deriving DecidableEq, Repr

/-- The fields of `Config`/`OTAConfig` the modelled core reads. The three
`has...` flags record whether the corresponding optional callback is
non-nil; the engine emits a callback event only when the flag is set,
mirroring the `!= nil` guards in the source. -/
structure ConfigM where
  serverURL : String
  licenseKey : String
  publicKeyPEM : Option (List Nat)
  projectSlug : String
  componentSlug : String
  heartbeatInterval : Int
  maxOfflineDuration : Int
  warningInterval : Int
  otaEnabled : Bool
  autoUpdate : Bool
  checkInterval : Int
  otaOS : String
  otaArch : String
  downloadTimeout : Int
  maxArtifactBytes : Int
  hasProgress : Bool
  hasResult : Bool
  hasFailure : Bool
  managedComponents : List ManagedComponentM
deriving DecidableEq, Repr

/-- config.go `setDefaults`. `goos`/`goarch` stand for `runtime.GOOS` and
`runtime.GOARCH`. Durations are in nanoseconds as in Go. The Go method
fills the fields one after another; since each assignment touches only the
fields its own condition reads, the sequential updates equal this
simultaneous record update. -/
def setDefaults (goos goarch : String) (c : ConfigM) : ConfigM :=
  { c with
    heartbeatInterval :=
      if c.heartbeatInterval = 0 then 3600000000000 else c.heartbeatInterval,
    maxOfflineDuration :=
      if c.maxOfflineDuration = 0 then 259200000000000 else c.maxOfflineDuration,
    warningInterval :=
      if c.warningInterval = 0 then 14400000000000 else c.warningInterval,
    checkInterval :=
      if c.checkInterval = 0 then 21600000000000 else c.checkInterval,
    otaOS := if c.otaOS = "" ∧ c.otaArch = "" then goos else c.otaOS,
    otaArch := if c.otaOS = "" ∧ c.otaArch = "" then goarch else c.otaArch,
    downloadTimeout :=
      if c.downloadTimeout = 0 then 600000000000 else c.downloadTimeout,
    maxArtifactBytes :=
      if c.maxArtifactBytes = 0 then 524288000 else c.maxArtifactBytes }

/-! ### Guard construction (guard.go `New`) -/

structure GuardM where
  cfg : ConfigM
  publicKey : List Nat
  version : String
  managedVersions : List (String × String)
deriving DecidableEq, Repr

/-- guard.go `New`. `pemDecode` stands for `pem.Decode` returning the
decoded block's bytes (`none` when no PEM block is found); `fpOk` records
whether `collectFingerprint` succeeded. `publicKeyPEM = none` models a nil
byte slice. Ed25519 `PublicKeySize` is 32. -/
def newGuard (goos goarch : String) (pemDecode : List Nat → Option (List Nat))
    (fpOk : Bool) (cfg0 : ConfigM) : Except String GuardM :=
  let cfg := setDefaults goos goarch cfg0
  if cfg.serverURL = "" then .error "server_url is required"
  else if cfg.licenseKey = "" then .error "license_key is required"
  else
    match cfg.publicKeyPEM with
    | none => .error "public_key_pem is required"
    | some pemBytes =>
      if cfg.projectSlug = "" then .error "project_slug is required"
      else if cfg.componentSlug = "" then .error "component_slug is required"
      else
        match pemDecode pemBytes with
        | none => .error "failed to decode public key PEM"
        | some blockBytes =>
          if blockBytes.length ≠ 32 then .error "invalid ed25519 public key size"
          else if ¬ fpOk then .error "collect fingerprint"
          else
            .ok { cfg := cfg
                  publicKey := blockBytes
                  version := "unknown"
                  managedVersions := cfg.managedComponents.map (fun mc => (mc.slug, "unknown")) }

/-! ### Heartbeat (heartbeat.go) -/

structure UpdateInfo where
  component : String
  current : String
  latest : String
  updateAvailable : Bool
  mandatory : Bool
deriving DecidableEq, Repr

structure HeartbeatResponse where
  status : String
  updateFrozen : Bool
  updates : List UpdateInfo
deriving DecidableEq, Repr

/-- updater.go `handleUpdateNotification`: routes one notification either to
the backend updater (the guard's own component, or a managed component with
`UpdateBackend` strategy) or to the frontend updater; `none` when
`AutoUpdate` is off or no component matches. -/
inductive Dispatch
  | backend (u : UpdateInfo)
  | frontend (mc : ManagedComponentM) (u : UpdateInfo)
deriving DecidableEq, Repr

def handleUpdateNotification (cfg : ConfigM) (u : UpdateInfo) : Option Dispatch :=
  if u.component = cfg.componentSlug then
    if cfg.autoUpdate then some (.backend u) else none
  else
    match cfg.managedComponents.find? (fun mc => mc.slug = u.component) with
    | some mc =>
      if cfg.autoUpdate then
        some (if mc.strategy = 0 then .backend u else .frontend mc u)
      else none
    | none => none

/-- heartbeat.go `sendHeartbeat`. `post` is the outcome of the
`postJSON("/api/v1/heartbeat", ...)` transport call. Returns the state
machine events it raises itself, the update notifications it hands to
`handleUpdateNotification` (paired with the routing decision), and the
error it returns to the loop. A transport failure comes back wrapped in
`ErrNetworkError`; a `status = "kill"` response raises `OnKill` and returns
the `ErrBanned` sentinel before any update dispatch. -/
def sendHeartbeat (cfg : ConfigM) (post : Except String HeartbeatResponse) :
    List SMEvent × List (UpdateInfo × Option Dispatch) × Option GuardErr :=
  match post with
  | .error msg => ([], [], some (.networkWrapped msg))
  | .ok resp =>
    if resp.status = "kill" then ([.kill], [], some .banned)
    else
      let dispatched :=
        if cfg.otaEnabled && !resp.updateFrozen then
          (resp.updates.filter (fun u => u.updateAvailable)).map
            (fun u => (u, handleUpdateNotification cfg u))
        else []
      ([], dispatched, none)

/-- Why the heartbeat loop stopped iterating: `running` means the supplied
schedule of wakes was exhausted with the loop still alive (cancellation via
`ctx.Done()` is an external event and is not part of the failure-handling
logic under verification). -/
inductive LoopExit
  | running
  | fatal
  | graceExpired
deriving DecidableEq, Repr

inductive StepRes
  | terminated (events : List SMEvent) (exit : LoopExit)
  | next (events : List SMEvent) (graceStart : Option Int)
deriving DecidableEq, Repr

/-- The failure-handling tail of one loop iteration in heartbeat.go
`startHeartbeat` (lines 85-107): given the grace-start marker, the current
time and the error returned by `sendHeartbeat`, produce the state-machine
events raised by the loop body and either the marker for the next
iteration or a terminal exit. -/
def hbStep (maxOffline : Int) (graceStart : Option Int) (now : Int)
    (err : Option GuardErr) : StepRes :=
  match err with
  | none => .next [.heartbeatOK] none
  | some e =>
    if isFatalError e then .terminated [.kill] .fatal
    else
      let gs := graceStart.getD now
      if now - gs > maxOffline then
        .terminated [.heartbeatFail, .graceExpired] .graceExpired
      else
        .next [.heartbeatFail] (some gs)

/-- One wake of the heartbeat loop: the (monotone-clock) time at which
`time.Now()` is read, and the transport outcome of that iteration's
heartbeat request. -/
structure HBIter where
  now : Int
  post : Except String HeartbeatResponse
deriving Repr

/-- heartbeat.go `startHeartbeat`: the loop, run over an explicit schedule
of wakes. Returns all state-machine events raised (by `sendHeartbeat` and
by the loop body, in order) and the exit condition. Iterations after a
terminal step are not processed. -/
def hbLoop (cfg : ConfigM) (graceStart : Option Int) :
    List HBIter → List SMEvent × LoopExit
  | [] => ([], .running)
  | it :: rest =>
    let r := sendHeartbeat cfg it.post
    match hbStep cfg.maxOfflineDuration graceStart it.now r.2.2 with
    | .terminated evs exit => (r.1 ++ evs, exit)
    | .next evs gs =>
      let tail := hbLoop cfg gs rest
      (r.1 ++ evs ++ tail.1, tail.2)

/-! ### License verification and cache (license.go)

The cryptographic primitives are consumed as black boxes, as the source
does: `b64decode` is `base64.StdEncoding.DecodeString` (`none` on decode
error), `sha256d` is `sha256.Sum256` applied to a string's bytes, and
`edVerify` is `ed25519.Verify` with the guard's fixed public key, taking
the digest and the signature. -/

structure CryptoPrim where
  b64decode : String → Option (List Nat)
  sha256d : String → List Nat
  edVerify : List Nat → List Nat → Bool

structure CachedLicenseM where
  licenseKey : String
  publicData : String
  signature : String
  verifiedAt : String
deriving DecidableEq, Repr

/-- The fields of the `/api/v1/verify` response the verifier reads. -/
structure VerifyResp where
  status : String
  error : String
  message : String
  updateFrozen : Bool
  publicData : String
  signature : String
deriving DecidableEq, Repr

/-- license.go lines 59-74: map the response's symbolic error code to a
typed sentinel error; unknown codes wrap `ErrLicenseInvalid` with the raw
code attached. -/
def mapLicenseError (code : String) : GuardErr :=
  if code = "license_not_found" ∨ code = "license_inactive" then .licenseInvalid
  else if code = "license_expired" then .licenseExpired
  else if code = "project_not_authorized" then .projectNotAuthorized
  else if code = "max_machines_exceeded" then .maxMachinesExceeded
  else if code = "machine_banned" then .machineBanned
  else .licenseInvalidCode code

/-- license.go lines 23-31: the cache-trust check. `load` is the outcome of
`loadCachedLicense` (`none` when the file is absent, unreadable, or fails
JSON decoding). The entry is trusted when its base64 signature decodes and
Ed25519-verifies against the SHA-256 digest of `publicData`. -/
def trustedCache (p : CryptoPrim) (load : Option CachedLicenseM) : Bool :=
  match load with
  | none => false
  | some c =>
    match p.b64decode c.signature with
    | none => false
    | some sig => p.edVerify (p.sha256d c.publicData) sig

/-- The observable outcome of one `verifyLicense` run: the returned error
(`none` = ok), how many remote verification requests were sent, and the
`(publicData, signature)` pairs written to the cache file, in order. -/
structure LicenseOutcome where
  result : Option GuardErr
  networkCalls : Nat
  cacheWrites : List (String × String)
deriving DecidableEq, Repr

/-- license.go `verifyLicense`. `remote` is the outcome of the
`postJSON("/api/v1/verify", ...)` transport call; it is consulted only when
the cache is not trusted. On remote success the returned payload and
signature are passed to `cacheLicense`, which overwrites the cache file. -/
def verifyLicense (p : CryptoPrim) (load : Option CachedLicenseM)
    (remote : Except String VerifyResp) : LicenseOutcome :=
  if trustedCache p load then
    { result := none, networkCalls := 0, cacheWrites := [] }
  else
    match remote with
    | .error msg =>
      { result := some (.networkWrapped msg), networkCalls := 1, cacheWrites := [] }
    | .ok resp =>
      if resp.error ≠ "" then
        { result := some (mapLicenseError resp.error), networkCalls := 1,
          cacheWrites := [] }
      else
        { result := none, networkCalls := 1,
          cacheWrites := [(resp.publicData, resp.signature)] }

/-! ### Go path handling (path/filepath, Unix separator)

`goClean` is Go's `filepath.Clean` lexical algorithm, `goJoin` is
`filepath.Join` on two elements, `goDir` is `filepath.Dir`, and
`strHasPrefix` is `strings.HasPrefix`. These are the functions the
tar-extraction guard in updater.go relies on. Splitting, joining and
prefix testing are spelled out over character lists (equivalent to Go's
byte-level operations on valid UTF-8) so that all of them are structurally
recursive and evaluate on concrete inputs. -/

/-- Split on '/' keeping empty parts, like `strings.Split(s, "/")`. -/
def splitOnSlash : List Char → List Char → List String
  | [], acc => [String.mk acc.reverse]
  | c :: rest, acc =>
    if c = '/' then String.mk acc.reverse :: splitOnSlash rest []
    else splitOnSlash rest (c :: acc)

def intercalateSlash : List String → String
  | [] => ""
  | [s] => s
  | s :: rest => s ++ "/" ++ intercalateSlash rest

/-- `strings.HasPrefix`. -/
def strHasPrefix (p s : String) : Bool :=
  p.toList.isPrefixOf s.toList

def isRooted (path : String) : Bool :=
  match path.toList with
  | '/' :: _ => true
  | _ => false

/-- The element loop of `filepath.Clean`: `acc` holds the output elements
in reverse. `""` and `"."` are dropped; `".."` backtracks over a normal
element, stacks after a leading `".."` in a relative path, and is dropped
at the root of an absolute path. -/
def goCleanComps (rooted : Bool) : List String → List String → List String
  | [], acc => acc.reverse
  | e :: rest, acc =>
    if e = "" ∨ e = "." then goCleanComps rooted rest acc
    else if e = ".." then
      match acc with
      | [] => goCleanComps rooted rest (if rooted then [] else [".."])
      | a :: accTail =>
        if a = ".." then goCleanComps rooted rest (if rooted then a :: accTail else ".." :: a :: accTail)
        else goCleanComps rooted rest accTail
    else goCleanComps rooted rest (e :: acc)

def goClean (path : String) : String :=
  if path = "" then "."
  else
    let rooted := isRooted path
    let comps := goCleanComps rooted (splitOnSlash path.toList []) []
    if rooted then "/" ++ intercalateSlash comps
    else if comps = [] then "."
    else intercalateSlash comps

/-- `filepath.Join(a, b)`: drop empty elements, join with "/", then Clean;
all-empty input yields "". -/
def goJoin (a b : String) : String :=
  if a = "" then (if b = "" then "" else goClean b)
  else if b = "" then goClean a
  else goClean (a ++ "/" ++ b)

/-- `filepath.Dir`: everything up to and including the final separator,
cleaned; "." when the path holds no separator. -/
def goDir (path : String) : String :=
  match splitOnSlash path.toList [] with
  | [] => "."
  | [_] => "."
  | cs => goClean (intercalateSlash cs.dropLast ++ "/")

/-! ### Update engine (updater.go) -/

/-- One error value surfaced through the update callbacks, tagged with the
sentinel it wraps (`ErrUpdateDownload` / `ErrUpdateVerify` /
`ErrUpdateApply` / `ErrUpdateRollback`); `plain` is an unwrapped error as
handed to `OnUpdateResult`. -/
inductive UErr
  | download (msg : String)
  | verify (msg : String)
  | apply (msg : String)
  | rollback (msg : String)
  | plain (msg : String)
deriving DecidableEq, Repr

/-- One invocation of an update callback, in invocation order. -/
inductive CbEvent
  | progress (component stage : String) (frac : Rat)
  | failure (component : String) (err : UErr)
  | result (component oldV newV : String) (success : Bool) (err : Option UErr)
deriving DecidableEq, Repr

def emitProgress (cfg : ConfigM) (c stage : String) (f : Rat) : List CbEvent :=
  if cfg.hasProgress then [.progress c stage f] else []

def emitFailure (cfg : ConfigM) (c : String) (e : UErr) : List CbEvent :=
  if cfg.hasFailure then [.failure c e] else []

def emitResult (cfg : ConfigM) (c oldV newV : String) (success : Bool)
    (e : Option UErr) : List CbEvent :=
  if cfg.hasResult then [.result c oldV newV success e] else []

/-- updater.go `verifySignature`: base64-decode the detached signature and
Ed25519-verify it over the SHA-256 digest of the hex-digest string. -/
def verifySignature (p : CryptoPrim) (data sigB64 : String) : Except String Unit :=
  match p.b64decode sigB64 with
  | none => .error "decode signature"
  | some sig =>
    if p.edVerify (p.sha256d data) sig then .ok ()
    else .error "signature verification failed"

/-- The environment outcomes one `updateBackend` run observes, each the
result of an I/O step of the pipeline: the download-metadata request
(url, declared SHA-256 hex digest, base64 signature; `error` covers both a
transport failure and a server-side `resp.Error`), the artifact download
(the computed SHA-256 hex digest of the bytes received), `os.Executable`,
and `update.Apply` of go-selfupdate (which restores the old binary on
failure; `some msg` is its error). -/
structure BackendEnv where
  meta : Except String (String × String × String)
  download : Except String String
  execPath : Except String String
  applyRes : Option String

/-- The observable outcome of one backend update attempt: the callback
invocations in order, the guard's primary version afterwards, and whether
the live binary was replaced. -/
structure BackendOutcome where
  events : List CbEvent
  version : String
  applied : Bool
deriving DecidableEq, Repr

/-- updater.go `updateBackend`, stage by stage. `oldVersion` is the guard's
primary version at entry. -/
def updateBackend (p : CryptoPrim) (cfg : ConfigM) (oldVersion : String)
    (u : UpdateInfo) (env : BackendEnv) : BackendOutcome :=
  let slug := cfg.componentSlug
  let ev0 := emitProgress cfg slug "requesting" 0
  match env.meta with
  | .error msg =>
    { events := ev0 ++ emitFailure cfg slug (.download msg) ++
        emitResult cfg slug oldVersion u.latest false (some (.plain msg)),
      version := oldVersion, applied := false }
  | .ok (_url, sha, sig) =>
    let ev1 := ev0 ++ emitProgress cfg slug "downloading" (3 / 10)
    match env.download with
    | .error msg =>
      { events := ev1 ++ emitFailure cfg slug (.download msg) ++
          emitResult cfg slug oldVersion u.latest false (some (.plain msg)),
        version := oldVersion, applied := false }
    | .ok actual =>
      let ev2 := ev1 ++ emitProgress cfg slug "verifying" (3 / 5)
      if actual ≠ sha then
        let msg := "hash mismatch: expected " ++ sha ++ ", got " ++ actual
        { events := ev2 ++ emitFailure cfg slug (.verify msg) ++
            emitResult cfg slug oldVersion u.latest false (some (.plain msg)),
          version := oldVersion, applied := false }
      else
        match verifySignature p sha sig with
        | .error msg =>
          { events := ev2 ++ emitFailure cfg slug (.verify msg) ++
              emitResult cfg slug oldVersion u.latest false (some (.plain msg)),
            version := oldVersion, applied := false }
        | .ok _ =>
          let ev3 := ev2 ++ emitProgress cfg slug "applying" (4 / 5)
          match env.execPath with
          | .error msg =>
            { events := ev3 ++ emitFailure cfg slug (.apply msg) ++
                emitResult cfg slug oldVersion u.latest false (some (.plain msg)),
              version := oldVersion, applied := false }
          | .ok _exe =>
            match env.applyRes with
            | some msg =>
              { events := ev3 ++ emitFailure cfg slug (.apply msg) ++
                  emitResult cfg slug oldVersion u.latest false (some (.plain msg)),
                version := oldVersion, applied := false }
            | none =>
              { events := ev3 ++
                  emitResult cfg slug oldVersion u.latest true none ++
                  emitProgress cfg slug "completed" 1,
                version := u.latest, applied := true }

/-! ### Frontend tar.gz extraction and directory swap (updater.go) -/

inductive TarType
  | dir
  | reg
  | other
deriving DecidableEq, Repr

/-- One tar entry together with the outcomes of the filesystem calls its
processing would make: `openRes`/`copyRes` are the errors (if any) of
`os.OpenFile` and `io.Copy` for a regular-file entry. -/
structure TarEntry where
  name : String
  typ : TarType
  openRes : Option String
  copyRes : Option String
deriving DecidableEq, Repr

/-- A filesystem node created under the extraction root: its path, the tar
entry name it came from, and whether it is a directory. -/
structure TWrite where
  path : String
  entryName : String
  isDir : Bool
deriving DecidableEq, Repr

structure ExtractOut where
  writes : List TWrite
  parentMkdirs : List String
  failed : Option UErr
deriving DecidableEq, Repr

/-- updater.go lines 369-413: the tar extraction loop. The input list is
the sequence of `tr.Next()` outcomes (`error msg` = a read error at that
point; end of list = EOF). An entry whose cleaned joined path does not
start with the cleaned root plus separator is skipped without touching the
filesystem; a regular file whose `io.Copy` fails has already been created
by `os.OpenFile`. -/
def extractLoop (tmpDir : String) : List (Except String TarEntry) → ExtractOut
  | [] => { writes := [], parentMkdirs := [], failed := none }
  | .error msg :: _ => { writes := [], parentMkdirs := [], failed := some (.verify msg) }
  | .ok e :: rest =>
    let target := goJoin tmpDir e.name
    let cleanedTarget := goClean target
    let cleanedTmpDir := goClean tmpDir ++ "/"
    if strHasPrefix cleanedTmpDir cleanedTarget then
      match e.typ with
      | .dir =>
        let out := extractLoop tmpDir rest
        { out with writes := ⟨target, e.name, true⟩ :: out.writes }
      | .reg =>
        let parent := goDir target
        match e.openRes with
        | some msg =>
          { writes := [], parentMkdirs := [parent], failed := some (.apply msg) }
        | none =>
          match e.copyRes with
          | some msg =>
            { writes := [⟨target, e.name, false⟩], parentMkdirs := [parent],
              failed := some (.apply msg) }
          | none =>
            let out := extractLoop tmpDir rest
            { writes := ⟨target, e.name, false⟩ :: out.writes,
              parentMkdirs := parent :: out.parentMkdirs,
              failed := out.failed }
      | .other => extractLoop tmpDir rest
    else
      extractLoop tmpDir rest

/-- The state of the live managed directory after an `updateFrontend` run:
never renamed away, restored by the rollback rename after a failed swap, or
replaced by the freshly extracted tree. -/
inductive LiveState
  | untouched
  | restored
  | replaced
deriving DecidableEq, Repr

/-- The environment outcomes one `updateFrontend` run observes: the
download-metadata request (`error` = transport failure; a server-side
error travels in `metaError`), the `http.Get` status, `os.MkdirTemp`,
`gzip.NewReader`, the tar entry stream, the hex digest the hasher computed
over the downloaded bytes, whether the live directory exists (`os.Stat`),
and the two renames of the atomic swap (`some msg` = failure). The
rollback rename after a failed swap has its error ignored by the source
and is modelled as restoring the backup. -/
structure FrontendEnv where
  meta : Except String (String × String)
  metaError : String
  httpStatus : Except String Nat
  mkTemp : Except String String
  gzInit : Option String
  entries : List (Except String TarEntry)
  actualHash : String
  liveExists : Bool
  renameOldToBak : Option String
  renameTmpToLive : Option String

/-- The observable outcome of one frontend update attempt: callback
invocations in order, the managed component's recorded version afterwards,
the live directory's fate, and the nodes created under the temporary
extraction root. -/
structure FrontendOutcome where
  events : List CbEvent
  version : String
  live : LiveState
  writes : List TWrite
  parentMkdirs : List String
deriving DecidableEq, Repr

/-- updater.go `updateFrontend`, stage by stage. `oldVersion` is the
managed version recorded for `mc.slug` at entry. The post-update hook
(code lines 473-478) only logs its error and is omitted from the outcome. -/
def updateFrontend (cfg : ConfigM) (mc : ManagedComponentM) (oldVersion : String)
    (u : UpdateInfo) (env : FrontendEnv) : FrontendOutcome :=
  let slug := mc.slug
  let ev0 := emitProgress cfg slug "requesting" 0
  match env.meta with
  | .error msg =>
    { events := ev0 ++ emitFailure cfg slug (.download msg),
      version := oldVersion, live := .untouched, writes := [], parentMkdirs := [] }
  | .ok (_url, sha) =>
    if env.metaError ≠ "" then
      { events := ev0 ++ emitFailure cfg slug (.download env.metaError),
        version := oldVersion, live := .untouched, writes := [], parentMkdirs := [] }
    else
      let ev1 := ev0 ++ emitProgress cfg slug "downloading" (3 / 10)
      match env.httpStatus with
      | .error msg =>
        { events := ev1 ++ emitFailure cfg slug (.download msg),
          version := oldVersion, live := .untouched, writes := [], parentMkdirs := [] }
      | .ok status =>
        if status ≠ 200 then
          { events := ev1 ++ emitFailure cfg slug (.download ("status " ++ toString status)),
            version := oldVersion, live := .untouched, writes := [], parentMkdirs := [] }
        else
          match env.mkTemp with
          | .error msg =>
            { events := ev1 ++ emitFailure cfg slug (.apply msg),
              version := oldVersion, live := .untouched, writes := [], parentMkdirs := [] }
          | .ok tmpDir =>
            let ev2 := ev1 ++ emitProgress cfg slug "extracting" (1 / 2)
            match env.gzInit with
            | some msg =>
              { events := ev2 ++ emitFailure cfg slug (.verify msg),
                version := oldVersion, live := .untouched, writes := [], parentMkdirs := [] }
            | none =>
              let ex := extractLoop tmpDir env.entries
              match ex.failed with
              | some e =>
                { events := ev2 ++ emitFailure cfg slug e,
                  version := oldVersion, live := .untouched,
                  writes := ex.writes, parentMkdirs := ex.parentMkdirs }
              | none =>
                let ev3 := ev2 ++ emitProgress cfg slug "verifying" (4 / 5)
                if env.actualHash ≠ sha then
                  { events := ev3 ++ emitFailure cfg slug (.verify "hash mismatch"),
                    version := oldVersion, live := .untouched,
                    writes := ex.writes, parentMkdirs := ex.parentMkdirs }
                else
                  let ev4 := ev3 ++ emitProgress cfg slug "applying" (9 / 10)
                  match (if env.liveExists then env.renameOldToBak else none) with
                  | some msg =>
                    { events := ev4 ++ emitFailure cfg slug (.apply msg),
                      version := oldVersion, live := .untouched,
                      writes := ex.writes, parentMkdirs := ex.parentMkdirs }
                  | none =>
                    match env.renameTmpToLive with
                    | some msg =>
                      { events := ev4 ++ emitFailure cfg slug (.apply msg),
                        version := oldVersion,
                        live := if env.liveExists then .restored else .untouched,
                        writes := ex.writes, parentMkdirs := ex.parentMkdirs }
                    | none =>
                      { events := ev4 ++
                          emitResult cfg slug oldVersion u.latest true none ++
                          emitProgress cfg slug "completed" 1,
                        version := u.latest, live := .replaced,
                        writes := ex.writes, parentMkdirs := ex.parentMkdirs }

/-! ### Concrete fixtures used by witnesses and counterexamples -/

/-- A minimal configuration with OTA enabled and auto-update on. -/
def cfgOTA : ConfigM :=
  { serverURL := "https://s", licenseKey := "k", publicKeyPEM := none,
    projectSlug := "p", componentSlug := "backend", heartbeatInterval := 0,
    maxOfflineDuration := 100, warningInterval := 0, otaEnabled := true,
    autoUpdate := true, checkInterval := 0, otaOS := "", otaArch := "",
    downloadTimeout := 0, maxArtifactBytes := 0, hasProgress := true,
    hasResult := true, hasFailure := true, managedComponents := [] }

/-- An update notification for the guard's own component. -/
def uBackend : UpdateInfo :=
  { component := "backend", current := "1.0", latest := "2.0",
    updateAvailable := true, mandatory := false }

/-- A kill heartbeat response that nevertheless carries an available
update entry. -/
def respKillWithUpdate : HeartbeatResponse :=
  { status := "kill", updateFrozen := false, updates := [uBackend] }

/-- An ok heartbeat response carrying one available and one unavailable
update entry. -/
def respOkUpdates : HeartbeatResponse :=
  { status := "ok", updateFrozen := false,
    updates := [uBackend,
      { component := "backend", current := "1.0", latest := "2.0",
        updateAvailable := false, mandatory := false }] }

/-- Toy crypto primitives: base64 decoding succeeds only on "goodsig",
the digest of a string is its length, and verification accepts exactly the
digest [4] with the signature [1]. -/
def primFix : CryptoPrim :=
  { b64decode := fun s => if s = "goodsig" then some [1] else none,
    sha256d := fun s => [s.length],
    edVerify := fun d sig => d == [4] && sig == [1] }

/-- A cache entry `primFix` trusts ("data" has length 4). -/
def cacheGood : CachedLicenseM :=
  { licenseKey := "k", publicData := "data", signature := "goodsig",
    verifiedAt := "t" }

/-- A cache entry whose signature fails to decode under `primFix`. -/
def cacheBad : CachedLicenseM :=
  { licenseKey := "k", publicData := "data", signature := "badsig",
    verifiedAt := "t" }

/-- A successful remote verification response. -/
def respGood : VerifyResp :=
  { status := "ok", error := "", message := "", updateFrozen := false,
    publicData := "pd", signature := "sg" }

/-- Discriminator for `OnUpdateResult` invocations. -/
def CbEvent.isResult : CbEvent → Bool
  | .result .. => true
  | _ => false

/-- A tar stream with one well-behaved file, one path-traversal attempt and
one directory entry. -/
def tarFixture : List (Except String TarEntry) :=
  [.ok { name := "good.txt", typ := .reg, openRes := none, copyRes := none },
   .ok { name := "../evil", typ := .reg, openRes := none, copyRes := none },
   .ok { name := "sub", typ := .dir, openRes := none, copyRes := none }]

def mcFix : ManagedComponentM :=
  { slug := "frontend", dir := "/srv/fe", strategy := 1 }

/-- A backend environment whose download hashes to "bb" while the server
declared "aa". -/
def beEnvHashBad : BackendEnv :=
  { meta := .ok ("u", "aa", "sg"), download := .ok "bb",
    execPath := .ok "/bin/app", applyRes := none }

/-- A frontend environment reaching the verify stage with computed digest
"bb" against declared "aa". -/
def feEnvHashBad : FrontendEnv :=
  { meta := .ok ("u", "aa"), metaError := "", httpStatus := .ok 200,
    mkTemp := .ok "/tmp/x", gzInit := none, entries := tarFixture,
    actualHash := "bb", liveExists := true, renameOldToBak := none,
    renameTmpToLive := none }

/-- A frontend environment whose metadata request fails at the transport. -/
def feEnvMetaFail : FrontendEnv :=
  { meta := .error "boom", metaError := "", httpStatus := .ok 200,
    mkTemp := .ok "/tmp/x", gzInit := none, entries := [],
    actualHash := "", liveExists := true, renameOldToBak := none,
    renameTmpToLive := none }

def pd32 : List Nat → Option (List Nat) := fun _ => some (List.replicate 32 0)

def cfgMissingURL : ConfigM := { cfgOTA with serverURL := "" }

/-- A complete configuration on which `setDefaults` is the identity. -/
def cfgFull : ConfigM :=
  { serverURL := "https://s", licenseKey := "k", publicKeyPEM := some [1, 2, 3],
    projectSlug := "p", componentSlug := "backend", heartbeatInterval := 1,
    maxOfflineDuration := 1, warningInterval := 1, otaEnabled := true,
    autoUpdate := true, checkInterval := 1, otaOS := "linux", otaArch := "amd64",
    downloadTimeout := 1, maxArtifactBytes := 1, hasProgress := false,
    hasResult := false, hasFailure := false,
    managedComponents := [{ slug := "fe", dir := "/srv/fe", strategy := 1 }] }

def guardFull : GuardM :=
  { cfg := cfgFull, publicKey := List.replicate 32 0, version := "unknown",
    managedVersions := [("fe", "unknown")] }

end BanyanHub

namespace BanyanHub

/-! ### Theorems: state machine -/

/-- C1: `OnKill()` sends every state to BANNED, and BANNED is absorbing:
every subsequent event leaves the state BANNED. -/
theorem onKill_banned_absorbing :
    (∀ s : State, onKill s = State.banned) ∧
    (∀ e : SMEvent, applyEvent e State.banned = State.banned) := by
  constructor
  · intro s; rfl
  · intro e; cases e <;> rfl

/-- C8: `OnVerifySuccess()` moves INIT and GRACE to ACTIVE and leaves
ACTIVE, LOCKED and BANNED unchanged. -/
theorem onVerifySuccess_transitions :
    onVerifySuccess State.init = State.active ∧
    onVerifySuccess State.grace = State.active ∧
    onVerifySuccess State.active = State.active ∧
    onVerifySuccess State.locked = State.locked ∧
    onVerifySuccess State.banned = State.banned := by
  refine ⟨rfl, ?_, ?_, ?_, ?_⟩ <;> decide

/-- C4: a heartbeat response with `status = "kill"` makes the loop raise
`OnKill` (the state machine lands in BANNED from any prior state) and
terminate at that iteration, whatever the grace-start marker and the rest
of the schedule; the transport itself succeeded. -/
theorem heartbeat_kill_immediate_ban (cfg : ConfigM) (gs : Option Int)
    (now : Int) (resp : HeartbeatResponse) (rest : List HBIter)
    (h : resp.status = "kill") :
    hbLoop cfg gs (⟨now, .ok resp⟩ :: rest) = ([.kill, .kill], .fatal) ∧
    ∀ s : State, runEvents s [.kill, .kill] = State.banned := by
  constructor
  · simp [hbLoop, sendHeartbeat, h, hbStep, isFatalError]
  · intro s; rfl

theorem heartbeat_kill_immediate_ban_witness :
    hbLoop cfgOTA (some 5)
      (⟨7, .ok ⟨"kill", false, []⟩⟩ :: [⟨9, .error "late"⟩]) =
      ([.kill, .kill], .fatal) :=
  (heartbeat_kill_immediate_ban _ _ _ _ _ rfl).1

/-- C5: `isFatalError` accepts exactly {Banned, LicenseSuspended,
MachineBanned}; on a fatal heartbeat error the loop raises `OnKill` and
terminates; on a transient error it raises `OnHeartbeatFail`, records the
grace start on the first consecutive failure, terminates with
`OnGracePeriodExpired` exactly when the elapsed time since that start
exceeds `MaxOfflineDuration`, and otherwise keeps iterating the schedule. -/
theorem heartbeat_failure_policy (maxOffline : Int) :
    (∀ e : GuardErr, isFatalError e = true ↔
      (e = .banned ∨ e = .licenseSuspended ∨ e = .machineBanned)) ∧
    (∀ (gs : Option Int) (now : Int) (e : GuardErr), isFatalError e = true →
      hbStep maxOffline gs now (some e) = .terminated [.kill] .fatal) ∧
    (∀ (now : Int) (e : GuardErr), isFatalError e = false →
      ¬ (now - now > maxOffline) →
      hbStep maxOffline none now (some e) = .next [.heartbeatFail] (some now)) ∧
    (∀ (gs now : Int) (e : GuardErr), isFatalError e = false →
      now - gs > maxOffline →
      hbStep maxOffline (some gs) now (some e) =
        .terminated [.heartbeatFail, .graceExpired] .graceExpired) ∧
    (∀ (gs now : Int) (e : GuardErr), isFatalError e = false →
      ¬ (now - gs > maxOffline) →
      hbStep maxOffline (some gs) now (some e) = .next [.heartbeatFail] (some gs)) ∧
    (∀ (cfg : ConfigM) (gs : Option Int) (now : Int) (msg : String)
        (rest : List HBIter),
      cfg.maxOfflineDuration = maxOffline →
      ¬ (now - gs.getD now > maxOffline) →
      hbLoop cfg gs (⟨now, .error msg⟩ :: rest) =
        (SMEvent.heartbeatFail :: (hbLoop cfg (some (gs.getD now)) rest).1,
         (hbLoop cfg (some (gs.getD now)) rest).2)) := by
  refine ⟨?_, ?_, ?_, ?_, ?_, ?_⟩
  · intro e; cases e <;> simp [isFatalError]
  · intro gs now e hf; simp [hbStep, hf]
  · intro now e hf hlt
    have h0 : ¬ ((0 : Int) > maxOffline) := by omega
    simp [hbStep, hf, h0]
  · intro gs now e hf hgt; simp [hbStep, hf, hgt]
  · intro gs now e hf hlt; simp [hbStep, hf, hlt]
  · intro cfg gs now msg rest hcfg hlt
    simp [hbLoop, sendHeartbeat, hbStep, isFatalError, hcfg, hlt]

theorem heartbeat_failure_policy_witness :
    hbStep 100 none 50 (some (.networkWrapped "x")) =
      .next [.heartbeatFail] (some 50) ∧
    hbStep 100 (some 10) 200 (some (.networkWrapped "x")) =
      .terminated [.heartbeatFail, .graceExpired] .graceExpired ∧
    hbStep 100 (some 10) 50 (some .banned) = .terminated [.kill] .fatal ∧
    (isFatalError .licenseSuspended = true ↔
      (GuardErr.licenseSuspended = .banned ∨
       GuardErr.licenseSuspended = .licenseSuspended ∨
       GuardErr.licenseSuspended = .machineBanned)) :=
  ⟨(heartbeat_failure_policy 100).2.2.1 50 (.networkWrapped "x")
      (by decide) (by decide),
   (heartbeat_failure_policy 100).2.2.2.1 10 200 (.networkWrapped "x")
      (by decide) (by decide),
   (heartbeat_failure_policy 100).2.1 (some 10) 50 .banned (by decide),
   (heartbeat_failure_policy 100).1 .licenseSuspended⟩

/-- C9 (counterexample): a heartbeat response with `status = "kill"` that
carries an `updateAvailable = true` entry, with OTA enabled and updates not
frozen, dispatches nothing — `sendHeartbeat` returns on the kill before the
update loop, refuting "every entry with updateAvailable=true is dispatched"
for this response. -/
theorem heartbeat_dispatch_claim_cex :
    cfgOTA.otaEnabled = true ∧ respKillWithUpdate.updateFrozen = false ∧
    (∃ u ∈ respKillWithUpdate.updates, u.updateAvailable = true) ∧
    (sendHeartbeat cfgOTA (.ok respKillWithUpdate)).2.1 = [] := by
  refine ⟨rfl, rfl, ⟨uBackend, ?_, rfl⟩, ?_⟩
  · simp [respKillWithUpdate]
  · decide

/-- C9 (amended): for every heartbeat response whose status is not "kill",
if OTA is enabled and updates are not frozen then exactly the
`updateAvailable = true` entries are handed to `handleUpdateNotification`,
in order; if OTA is disabled or the response marks updates frozen, none
are. -/
theorem heartbeat_update_dispatch (cfg : ConfigM) (resp : HeartbeatResponse)
    (hk : resp.status ≠ "kill") :
    (cfg.otaEnabled = true → resp.updateFrozen = false →
      (sendHeartbeat cfg (.ok resp)).2.1 =
        (resp.updates.filter (fun u => u.updateAvailable)).map
          (fun u => (u, handleUpdateNotification cfg u))) ∧
    ((cfg.otaEnabled = false ∨ resp.updateFrozen = true) →
      (sendHeartbeat cfg (.ok resp)).2.1 = []) := by
  constructor
  · intro he hf; simp [sendHeartbeat, hk, he, hf]
  · intro h
    rcases h with h | h <;> simp [sendHeartbeat, hk, h]

theorem heartbeat_update_dispatch_witness :
    (sendHeartbeat cfgOTA (.ok respOkUpdates)).2.1 =
      (respOkUpdates.updates.filter (fun u => u.updateAvailable)).map
        (fun u => (u, handleUpdateNotification cfgOTA u)) :=
  (heartbeat_update_dispatch cfgOTA respOkUpdates (by decide)).1 rfl rfl

/-- C6: a trusted cache entry short-circuits verification with no network
call and no cache write; an untrusted cache outcome (absent, unreadable, or
failing signature verification) behaves exactly like an absent cache —
exactly one remote request, with the result depending only on the remote
response; a successful remote response unconditionally overwrites the cache
with the returned payload and signature. -/
theorem verifyLicense_cache_policy :
    (∀ (p : CryptoPrim) (c : CachedLicenseM) (remote : Except String VerifyResp),
      trustedCache p (some c) = true →
      verifyLicense p (some c) remote =
        { result := none, networkCalls := 0, cacheWrites := [] }) ∧
    (∀ (p : CryptoPrim) (load : Option CachedLicenseM)
        (remote : Except String VerifyResp),
      trustedCache p load = false →
      verifyLicense p load remote = verifyLicense p none remote ∧
      (verifyLicense p load remote).networkCalls = 1) ∧
    (∀ (p : CryptoPrim) (load : Option CachedLicenseM) (resp : VerifyResp),
      trustedCache p load = false → resp.error = "" →
      (verifyLicense p load (.ok resp)).cacheWrites =
        [(resp.publicData, resp.signature)] ∧
      (verifyLicense p load (.ok resp)).result = none) := by
  refine ⟨?_, ?_, ?_⟩
  · intro p c remote h; simp [verifyLicense, h]
  · intro p load remote h
    have hn : trustedCache p none = false := rfl
    constructor
    · simp [verifyLicense, h, hn]
    · cases remote with
      | error msg => simp [verifyLicense, h]
      | ok resp =>
        simp only [verifyLicense, h, Bool.false_eq_true, if_false]
        split <;> rfl
  · intro p load resp h hresp
    simp [verifyLicense, h, hresp]

theorem verifyLicense_cache_policy_witness :
    verifyLicense primFix (some cacheGood) (.error "net") =
      { result := none, networkCalls := 0, cacheWrites := [] } ∧
    verifyLicense primFix (some cacheBad) (.ok respGood) =
      verifyLicense primFix none (.ok respGood) ∧
    (verifyLicense primFix (some cacheBad) (.ok respGood)).cacheWrites =
      [(respGood.publicData, respGood.signature)] :=
  ⟨verifyLicense_cache_policy.1 primFix cacheGood (.error "net") (by decide),
   (verifyLicense_cache_policy.2.1 primFix (some cacheBad) (.ok respGood)
      (by decide)).1,
   (verifyLicense_cache_policy.2.2 primFix (some cacheBad) respGood
      (by decide) rfl).1⟩

/-! Helper lemmas about the conditional callback emissions. -/

@[simp] theorem mem_emitProgress_iff (cfg : ConfigM) (c stage : String)
    (f : Rat) (ev : CbEvent) :
    ev ∈ emitProgress cfg c stage f ↔
      (cfg.hasProgress = true ∧ ev = .progress c stage f) := by
  unfold emitProgress; split <;> simp_all

@[simp] theorem mem_emitFailure_iff (cfg : ConfigM) (c : String) (e : UErr)
    (ev : CbEvent) :
    ev ∈ emitFailure cfg c e ↔
      (cfg.hasFailure = true ∧ ev = .failure c e) := by
  unfold emitFailure; split <;> simp_all

@[simp] theorem mem_emitResult_iff (cfg : ConfigM) (c oldV newV : String)
    (s : Bool) (e : Option UErr) (ev : CbEvent) :
    ev ∈ emitResult cfg c oldV newV s e ↔
      (cfg.hasResult = true ∧ ev = .result c oldV newV s e) := by
  unfold emitResult; split <;> simp_all

/-- C2: a computed digest different from the server-declared one aborts
both pipelines at the verify stage: the backend binary is not applied and
the primary version is untouched; the frontend live directory and managed
version are untouched; the failure callback (when configured) fires with a
`ErrUpdateVerify`-wrapped error; and no success result is ever reported. -/
theorem hash_mismatch_not_applied :
    (∀ (p : CryptoPrim) (cfg : ConfigM) (oldV : String) (u : UpdateInfo)
        (env : BackendEnv) (url sha sig actual : String),
      env.meta = .ok (url, sha, sig) → env.download = .ok actual →
      actual ≠ sha →
      (updateBackend p cfg oldV u env).applied = false ∧
      (updateBackend p cfg oldV u env).version = oldV ∧
      (cfg.hasFailure = true →
        CbEvent.failure cfg.componentSlug
            (.verify ("hash mismatch: expected " ++ sha ++ ", got " ++ actual)) ∈
          (updateBackend p cfg oldV u env).events) ∧
      (∀ c o n e, CbEvent.result c o n true e ∉
        (updateBackend p cfg oldV u env).events)) ∧
    (∀ (cfg : ConfigM) (mc : ManagedComponentM) (oldV : String) (u : UpdateInfo)
        (env : FrontendEnv) (url sha tmpDir : String),
      env.meta = .ok (url, sha) → env.metaError = "" →
      env.httpStatus = .ok 200 → env.mkTemp = .ok tmpDir →
      env.gzInit = none → (extractLoop tmpDir env.entries).failed = none →
      env.actualHash ≠ sha →
      (updateFrontend cfg mc oldV u env).live = .untouched ∧
      (updateFrontend cfg mc oldV u env).version = oldV ∧
      (cfg.hasFailure = true →
        CbEvent.failure mc.slug (.verify "hash mismatch") ∈
          (updateFrontend cfg mc oldV u env).events) ∧
      (∀ c o n e, CbEvent.result c o n true e ∉
        (updateFrontend cfg mc oldV u env).events)) := by
  constructor
  · intro p cfg oldV u env url sha sig actual hm hd hne
    simp only [updateBackend, hm, hd]
    rw [if_pos hne]
    refine ⟨rfl, rfl, ?_, ?_⟩
    · intro hF
      simp [List.mem_append, hF]
    · intro c o n e
      simp [List.mem_append]
  · intro cfg mc oldV u env url sha tmpDir hm hme hst hmk hgz hex hne
    simp only [updateFrontend, hm, hme, hst, hmk, hgz, hex]
    norm_num
    rw [if_neg hne]
    refine ⟨rfl, rfl, ?_, ?_⟩
    · intro hF
      simp [List.mem_append, hF]
    · intro c o n e
      simp [List.mem_append]

theorem hash_mismatch_not_applied_witness :
    (updateBackend primFix cfgOTA "1.0" uBackend beEnvHashBad).applied = false ∧
    (updateFrontend cfgOTA mcFix "1.0" uBackend feEnvHashBad).live = .untouched :=
  ⟨(hash_mismatch_not_applied.1 primFix cfgOTA "1.0" uBackend beEnvHashBad
      "u" "aa" "sg" "bb" rfl rfl (by decide)).1,
   (hash_mismatch_not_applied.2 cfgOTA mcFix "1.0" uBackend feEnvHashBad
      "u" "aa" "/tmp/x" rfl rfl rfl rfl rfl (by decide) (by decide)).1⟩

/-- C3: every filesystem node the extraction loop creates is the join of
the extraction root with its entry's name, and its cleaned resolved path
lies strictly inside the cleaned root: an entry resolving outside the root
is never written. -/
theorem tar_extraction_confined (tmpDir : String)
    (entries : List (Except String TarEntry)) :
    ∀ w ∈ (extractLoop tmpDir entries).writes,
      strHasPrefix (goClean tmpDir ++ "/")
          (goClean (goJoin tmpDir w.entryName)) = true ∧
      w.path = goJoin tmpDir w.entryName := by
  induction entries with
  | nil => intro w hw; simp [extractLoop] at hw
  | cons hd tl ih =>
    intro w hw
    cases hd with
    | error msg => simp [extractLoop] at hw
    | ok e =>
      simp only [extractLoop] at hw
      by_cases hpre : (strHasPrefix (goClean tmpDir ++ "/")
          (goClean (goJoin tmpDir e.name))) = true
      · rw [if_pos hpre] at hw
        cases ht : e.typ with
        | dir =>
          rw [ht] at hw
          rcases List.mem_cons.mp hw with h | h
          · subst h; exact ⟨hpre, rfl⟩
          · exact ih w h
        | reg =>
          rw [ht] at hw
          cases ho : e.openRes with
          | some msg => rw [ho] at hw; simp at hw
          | none =>
            rw [ho] at hw
            cases hc : e.copyRes with
            | some msg =>
              rw [hc] at hw
              rcases List.mem_singleton.mp hw with h
              subst h; exact ⟨hpre, rfl⟩
            | none =>
              rw [hc] at hw
              rcases List.mem_cons.mp hw with h | h
              · subst h; exact ⟨hpre, rfl⟩
              · exact ih w h
        | other => rw [ht] at hw; exact ih w hw
      · rw [if_neg hpre] at hw
        exact ih w hw

theorem append_no_result {l1 l2 : List CbEvent}
    (h1 : ∀ ev ∈ l1, CbEvent.isResult ev = false)
    (h2 : ∀ ev ∈ l2, CbEvent.isResult ev = false) :
    ∀ ev ∈ l1 ++ l2, CbEvent.isResult ev = false := by
  intro ev h
  rcases List.mem_append.mp h with h | h
  exacts [h1 ev h, h2 ev h]

theorem emitProgress_no_result (cfg : ConfigM) (c s : String) (f : Rat) :
    ∀ ev ∈ emitProgress cfg c s f, CbEvent.isResult ev = false := by
  intro ev h
  rcases (mem_emitProgress_iff cfg c s f ev).mp h with ⟨_, rfl⟩
  rfl

@[simp] theorem isResult_progress (c s : String) (f : Rat) :
    CbEvent.isResult (.progress c s f) = false := rfl

@[simp] theorem isResult_failure (c : String) (e : UErr) :
    CbEvent.isResult (.failure c e) = false := rfl

@[simp] theorem isResult_result (c o n : String) (s : Bool) (e : Option UErr) :
    CbEvent.isResult (.result c o n s e) = true := rfl

/-- Shape of every backend failure record: the failure callback fires,
then the false result callback, no success result appears, and the
`completed` progress stage is never reached. -/
theorem backendFail_props (cfg : ConfigM) (oldV newV : String)
    (evs : List CbEvent) (fe re : UErr)
    (hr : ∀ c o n s e, CbEvent.result c o n s e ∉ evs)
    (hc : ∀ c f, CbEvent.progress c "completed" f ∉ evs) :
    (cfg.hasFailure = true → cfg.hasResult = true →
      ∃ pre e2 re2, (evs ++ emitFailure cfg cfg.componentSlug fe ++
          emitResult cfg cfg.componentSlug oldV newV false (some re)) =
        pre ++ [CbEvent.failure cfg.componentSlug e2,
                CbEvent.result cfg.componentSlug oldV newV false (some re2)]) ∧
    (∀ c o n e, CbEvent.result c o n true e ∉
      evs ++ emitFailure cfg cfg.componentSlug fe ++
        emitResult cfg cfg.componentSlug oldV newV false (some re)) ∧
    (∀ c f, CbEvent.progress c "completed" f ∉
      evs ++ emitFailure cfg cfg.componentSlug fe ++
        emitResult cfg cfg.componentSlug oldV newV false (some re)) := by
  refine ⟨?_, ?_, ?_⟩
  · intro hF hR
    exact ⟨evs, fe, re, by simp [emitFailure, emitResult, hF, hR]⟩
  · intro c o n e hmem
    rcases List.mem_append.mp hmem with hmem | hmem
    · rcases List.mem_append.mp hmem with hmem | hmem
      · exact hr c o n true e hmem
      · simp at hmem
    · simp at hmem
  · intro c f hmem
    rcases List.mem_append.mp hmem with hmem | hmem
    · rcases List.mem_append.mp hmem with hmem | hmem
      · exact hc c f hmem
      · simp at hmem
    · simp at hmem

/-- Shape of every frontend failure record: the failure callback is the
last event, no result callback of any kind appears, and the `completed`
progress stage is never reached. -/
theorem frontendFail_props (cfg : ConfigM) (slug : String)
    (evs : List CbEvent) (fe : UErr)
    (hr : ∀ ev ∈ evs, CbEvent.isResult ev = false)
    (hc : ∀ c f, CbEvent.progress c "completed" f ∉ evs) :
    (cfg.hasFailure = true →
      ∃ pre e2, (evs ++ emitFailure cfg slug fe) =
        pre ++ [CbEvent.failure slug e2]) ∧
    (∀ ev ∈ evs ++ emitFailure cfg slug fe, CbEvent.isResult ev = false) ∧
    (∀ c f, CbEvent.progress c "completed" f ∉ evs ++ emitFailure cfg slug fe) := by
  refine ⟨?_, ?_, ?_⟩
  · intro hF
    exact ⟨evs, fe, by simp [emitFailure, hF]⟩
  · intro ev hmem
    rcases List.mem_append.mp hmem with hmem | hmem
    · exact hr ev hmem
    · rcases (mem_emitFailure_iff cfg slug fe ev).mp hmem with ⟨_, hev⟩
      subst hev; rfl
  · intro c f hmem
    rcases List.mem_append.mp hmem with hmem | hmem
    · exact hc c f hmem
    · simp at hmem

/-- C7 (counterexample): a frontend update whose metadata request fails,
with all three callbacks configured, invokes the failure callback but no
`OnUpdateResult` at all — refuting "invokes OnFailure and then OnResult
with success=false" for frontend attempts. -/
theorem frontend_failure_no_result_cex :
    cfgOTA.hasResult = true ∧
    CbEvent.failure "frontend" (.download "boom") ∈
      (updateFrontend cfgOTA mcFix "1.0" uBackend feEnvMetaFail).events ∧
    (updateFrontend cfgOTA mcFix "1.0" uBackend feEnvMetaFail).events.all
      (fun ev => !ev.isResult) = true := by
  refine ⟨rfl, ?_, ?_⟩ <;> decide

/-- C7 (amended): any stage failure short-circuits the remaining stages
(no success result, no `completed` progress) and leaves the stored version
untouched. A failed backend attempt invokes `OnFailure` and then
`OnResult(..., success=false, err)` when those callbacks are configured; a
failed frontend attempt invokes `OnFailure` as its last callback and never
invokes `OnResult`. -/
theorem update_failure_propagation :
    (∀ (p : CryptoPrim) (cfg : ConfigM) (oldV : String) (u : UpdateInfo)
        (env : BackendEnv),
      (updateBackend p cfg oldV u env).applied = false →
      (updateBackend p cfg oldV u env).version = oldV ∧
      (cfg.hasFailure = true → cfg.hasResult = true →
        ∃ pre e re, (updateBackend p cfg oldV u env).events =
          pre ++ [CbEvent.failure cfg.componentSlug e,
                  CbEvent.result cfg.componentSlug oldV u.latest false (some re)]) ∧
      (∀ c o n e, CbEvent.result c o n true e ∉
        (updateBackend p cfg oldV u env).events) ∧
      (∀ c f, CbEvent.progress c "completed" f ∉
        (updateBackend p cfg oldV u env).events)) ∧
    (∀ (cfg : ConfigM) (mc : ManagedComponentM) (oldV : String) (u : UpdateInfo)
        (env : FrontendEnv),
      (updateFrontend cfg mc oldV u env).live ≠ .replaced →
      (updateFrontend cfg mc oldV u env).version = oldV ∧
      (cfg.hasFailure = true →
        ∃ pre e, (updateFrontend cfg mc oldV u env).events =
          pre ++ [CbEvent.failure mc.slug e]) ∧
      (∀ ev ∈ (updateFrontend cfg mc oldV u env).events,
        CbEvent.isResult ev = false) ∧
      (∀ c f, CbEvent.progress c "completed" f ∉
        (updateFrontend cfg mc oldV u env).events)) := by
  constructor
  · intro p cfg oldV u env
    obtain ⟨meta, dl, ex, ap⟩ := env
    cases meta with
    | error msg =>
      intro _
      exact ⟨rfl, backendFail_props cfg oldV u.latest _ _ _ (by simp) (by simp)⟩
    | ok t =>
      obtain ⟨url, sha, sig⟩ := t
      cases dl with
      | error msg =>
        intro _
        exact ⟨rfl, backendFail_props cfg oldV u.latest _ _ _ (by simp) (by simp)⟩
      | ok actual =>
        by_cases hh : actual ≠ sha
        · intro _
          simp only [updateBackend]
          rw [if_pos hh]
          exact ⟨rfl, backendFail_props cfg oldV u.latest _ _ _ (by simp) (by simp)⟩
        · cases hv : verifySignature p sha sig with
          | error msg =>
            intro _
            simp only [updateBackend]
            rw [if_neg hh, hv]
            exact ⟨rfl, backendFail_props cfg oldV u.latest _ _ _ (by simp) (by simp)⟩
          | ok unitv =>
            cases ex with
            | error msg =>
              intro _
              simp only [updateBackend]
              rw [if_neg hh, hv]
              exact ⟨rfl, backendFail_props cfg oldV u.latest _ _ _ (by simp) (by simp)⟩
            | ok exe =>
              cases ap with
              | some msg =>
                intro _
                simp only [updateBackend]
                rw [if_neg hh, hv]
                exact ⟨rfl, backendFail_props cfg oldV u.latest _ _ _ (by simp) (by simp)⟩
              | none =>
                intro happ
                exfalso
                simp only [updateBackend] at happ
                rw [if_neg hh, hv] at happ
                simp at happ
  · intro cfg mc oldV u env
    obtain ⟨meta, merr, hst, mkt, gz, ents, ah, lex, r1, r2⟩ := env
    cases meta with
    | error msg =>
      intro _
      exact ⟨rfl, frontendFail_props cfg mc.slug _ _
            (by repeat' first
                  | exact emitProgress_no_result _ _ _ _
                  | apply append_no_result) (by simp)⟩
    | ok t =>
      obtain ⟨url, sha⟩ := t
      by_cases hme : merr ≠ ""
      · intro _
        simp only [updateFrontend]
        rw [if_pos hme]
        exact ⟨rfl, frontendFail_props cfg mc.slug _ _
            (by repeat' first
                  | exact emitProgress_no_result _ _ _ _
                  | apply append_no_result) (by simp)⟩
      · cases hst with
        | error msg =>
          intro _
          simp only [updateFrontend]
          rw [if_neg hme]
          exact ⟨rfl, frontendFail_props cfg mc.slug _ _
            (by repeat' first
                  | exact emitProgress_no_result _ _ _ _
                  | apply append_no_result) (by simp)⟩
        | ok status =>
          by_cases hs : status ≠ 200
          · intro _
            simp only [updateFrontend]
            rw [if_neg hme, if_pos hs]
            exact ⟨rfl, frontendFail_props cfg mc.slug _ _
            (by repeat' first
                  | exact emitProgress_no_result _ _ _ _
                  | apply append_no_result) (by simp)⟩
          · cases mkt with
            | error msg =>
              intro _
              simp only [updateFrontend]
              rw [if_neg hme, if_neg hs]
              exact ⟨rfl, frontendFail_props cfg mc.slug _ _
            (by repeat' first
                  | exact emitProgress_no_result _ _ _ _
                  | apply append_no_result) (by simp)⟩
            | ok tmpDir =>
              cases gz with
              | some msg =>
                intro _
                simp only [updateFrontend]
                rw [if_neg hme, if_neg hs]
                exact ⟨rfl, frontendFail_props cfg mc.slug _ _
            (by repeat' first
                  | exact emitProgress_no_result _ _ _ _
                  | apply append_no_result) (by simp)⟩
              | none =>
                cases hexf : (extractLoop tmpDir ents).failed with
                | some fe =>
                  intro _
                  simp only [updateFrontend]
                  rw [if_neg hme, if_neg hs, hexf]
                  exact ⟨rfl, frontendFail_props cfg mc.slug _ _
            (by repeat' first
                  | exact emitProgress_no_result _ _ _ _
                  | apply append_no_result) (by simp)⟩
                | none =>
                  by_cases hh : ah ≠ sha
                  · intro _
                    simp only [updateFrontend]
                    rw [if_neg hme, if_neg hs, hexf, if_pos hh]
                    exact ⟨rfl, frontendFail_props cfg mc.slug _ _
            (by repeat' first
                  | exact emitProgress_no_result _ _ _ _
                  | apply append_no_result) (by simp)⟩
                  · cases hr1 : (if lex = true then r1 else none) with
                    | some msg =>
                      intro _
                      simp only [updateFrontend]
                      rw [if_neg hme, if_neg hs, hexf, if_neg hh, hr1]
                      exact ⟨rfl, frontendFail_props cfg mc.slug _ _
            (by repeat' first
                  | exact emitProgress_no_result _ _ _ _
                  | apply append_no_result) (by simp)⟩
                    | none =>
                      cases r2 with
                      | some msg =>
                        intro _
                        simp only [updateFrontend]
                        rw [if_neg hme, if_neg hs, hexf, if_neg hh, hr1]
                        exact ⟨rfl, frontendFail_props cfg mc.slug _ _
            (by repeat' first
                  | exact emitProgress_no_result _ _ _ _
                  | apply append_no_result) (by simp)⟩
                      | none =>
                        intro hlive
                        exfalso
                        apply hlive
                        simp only [updateFrontend]
                        rw [if_neg hme, if_neg hs, hexf, if_neg hh, hr1]

theorem update_failure_propagation_witness :
    (updateBackend primFix cfgOTA "1.0" uBackend beEnvHashBad).version = "1.0" ∧
    (updateFrontend cfgOTA mcFix "1.0" uBackend feEnvMetaFail).version = "1.0" :=
  ⟨(update_failure_propagation.1 primFix cfgOTA "1.0" uBackend beEnvHashBad
      (by decide)).1,
   (update_failure_propagation.2 cfgOTA mcFix "1.0" uBackend feEnvMetaFail
      (by decide)).1⟩

theorem tar_extraction_confined_witness :
    (⟨"/tmp/x/good.txt", "good.txt", false⟩ : TWrite) ∈
      (extractLoop "/tmp/x" tarFixture).writes ∧
    (strHasPrefix (goClean "/tmp/x" ++ "/")
        (goClean (goJoin "/tmp/x" "good.txt")) = true ∧
      "/tmp/x/good.txt" = goJoin "/tmp/x" "good.txt") :=
  ⟨by decide,
   tar_extraction_confined "/tmp/x" tarFixture
     ⟨"/tmp/x/good.txt", "good.txt", false⟩ (by decide)⟩

/-- `setDefaults` only fills in scheduling and OTA tuning fields; the
identity and key fields it never touches. -/
theorem setDefaults_fields (goos goarch : String) (c : ConfigM) :
    (setDefaults goos goarch c).serverURL = c.serverURL ∧
    (setDefaults goos goarch c).licenseKey = c.licenseKey ∧
    (setDefaults goos goarch c).publicKeyPEM = c.publicKeyPEM ∧
    (setDefaults goos goarch c).projectSlug = c.projectSlug ∧
    (setDefaults goos goarch c).componentSlug = c.componentSlug ∧
    (setDefaults goos goarch c).managedComponents = c.managedComponents :=
  ⟨rfl, rfl, rfl, rfl, rfl, rfl⟩

theorem lookup_map_unknown (l : List ManagedComponentM) (s : String)
    (h : ∃ mc ∈ l, mc.slug = s) :
    (l.map (fun mc => (mc.slug, "unknown"))).lookup s = some "unknown" := by
  induction l with
  | nil =>
    rcases h with ⟨mc, hmc, _⟩
    cases hmc
  | cons a tl ih =>
    simp only [List.map_cons, List.lookup]
    by_cases hs : s = a.slug
    · simp [hs]
    · have hbeq : (s == a.slug) = false := beq_eq_false_iff_ne.mpr hs
      rw [hbeq]
      apply ih
      rcases h with ⟨mc, hmc, hslug⟩
      rcases List.mem_cons.mp hmc with h1 | h1
      · exfalso; apply hs; rw [← hslug, h1]
      · exact ⟨mc, h1, hslug⟩

/-- C10: `New(cfg)` returns an error whenever ServerURL, LicenseKey,
PublicKeyPEM, ProjectSlug or ComponentSlug is missing, or the PEM-decoded
public key is not exactly the Ed25519 public-key size (32); on success the
primary version and the version of every configured managed component are
initialized to "unknown". -/
theorem newGuard_validation (goos goarch : String)
    (pemDecode : List Nat → Option (List Nat)) (fpOk : Bool) (cfg : ConfigM) :
    ((cfg.serverURL = "" ∨ cfg.licenseKey = "" ∨ cfg.publicKeyPEM = none ∨
      cfg.projectSlug = "" ∨ cfg.componentSlug = "") →
      ∃ msg, newGuard goos goarch pemDecode fpOk cfg = .error msg) ∧
    (∀ pemBytes blockBytes, cfg.publicKeyPEM = some pemBytes →
      pemDecode pemBytes = some blockBytes → blockBytes.length ≠ 32 →
      ∃ msg, newGuard goos goarch pemDecode fpOk cfg = .error msg) ∧
    (∀ g, newGuard goos goarch pemDecode fpOk cfg = .ok g →
      g.version = "unknown" ∧
      ∀ mc ∈ cfg.managedComponents,
        g.managedVersions.lookup mc.slug = some "unknown") := by
  obtain ⟨h1, h2, h3, h4, h5, h6⟩ := setDefaults_fields goos goarch cfg
  refine ⟨?_, ?_, ?_⟩
  · intro h
    simp only [newGuard]
    repeat' split
    all_goals try exact ⟨_, rfl⟩
    exfalso
    rcases h with h | h | h | h | h <;> simp_all
  · intro pemBytes blockBytes hpem hdec hlen
    simp only [newGuard]
    repeat' split
    all_goals try exact ⟨_, rfl⟩
    exfalso
    simp_all
  · intro g hg
    simp only [newGuard] at hg
    repeat' split at hg
    all_goals try exact Except.noConfusion hg
    injection hg with hg
    subst hg
    refine ⟨rfl, ?_⟩
    intro mc hmc
    simp only []
    rw [h6]
    exact lookup_map_unknown cfg.managedComponents mc.slug ⟨mc, hmc, rfl⟩

theorem newGuard_validation_witness :
    (∃ msg, newGuard "linux" "amd64" pd32 true cfgMissingURL = .error msg) ∧
    (guardFull.version = "unknown" ∧
     ∀ mc ∈ cfgFull.managedComponents,
       guardFull.managedVersions.lookup mc.slug = some "unknown") :=
  ⟨(newGuard_validation "linux" "amd64" pd32 true cfgMissingURL).1 (Or.inl rfl),
   (newGuard_validation "linux" "amd64" pd32 true cfgFull).2.2 guardFull rfl⟩

end BanyanHub
